import Mathlib

/-
Verification of the ctpl thread pool (src/thirdparty/ctpl/ctpl-std.h).

The development shallowly embeds the three layers of the source:
the bounded task queue ctpl::detail::Queue (lines 92 to 126), the
manager-visible state and operations of ctpl::thread_pool (lines 129
to 318), and the loop of one worker thread set up by set_thread
(lines 272 to 300).

Condition variables are modeled explicitly: a thread that calls
cv.wait under the lock is appended to a waiting list; notify_one
moves the head of that list to a notified list; a notified thread
later re-acquires the lock and finishes its operation in a separate
step, exactly as in the source, where wake-up and lock
re-acquisition are distinct moments.
-/

namespace Ctpl

/-- A submitted task: the functor allocated by thread_pool::push. The
wrapped packaged task takes the index of the executing worker and
produces either a value or a raised failure; the id field identifies
the task handle. -/
structure Task where
  id : Nat
  run : Nat → Except Nat Nat

/-- State of ctpl::detail::Queue (lines 92 to 126): the FIFO list q,
the capacity field limit_ (uint32_t, default 0), the pushers parked in
cv.wait (field waiting, in wait order) and the pushers already woken
by notify_one but not yet holding the lock again (field notified). -/
structure QState (α : Type) where
  q : List α
  limit : Nat
  waiting : List α
  notified : List α

namespace QState

/-- First half of Queue::push (lines 95 to 102): under the lock, when
q.size() is at least limit_ the caller enters cv.wait, releasing the
lock (it is appended to the waiting list); otherwise it appends the
value at the tail and returns. -/
def pushStart {α : Type} (s : QState α) (v : α) : QState α :=
  if s.q.length ≥ s.limit then { s with waiting := s.waiting ++ [v] }
  else { s with q := s.q ++ [v] }

/-- Second half of Queue::push for a woken pusher: after cv.wait
returns, the lock is re-acquired and the value is appended
unconditionally; the wait at line 98 is an if, not a while, so the
limit is not re-checked. -/
def pushResume {α : Type} (s : QState α) : QState α :=
  match s.notified with
  | [] => s
  | w :: ws => { s with q := s.q ++ [w], notified := ws }

/-- Queue::pop (lines 104 to 112): under the lock, when q is empty it
returns false at once; otherwise it removes the front element,
performs cv.notify_one, which moves at most one parked pusher from
waiting to notified, and returns true with the element. It never
waits. -/
def pop {α : Type} (s : QState α) : Option α × QState α :=
  match s.q with
  | [] => (none, s)
  | v :: rest =>
    match s.waiting with
    | [] => (some v, { s with q := rest })
    | w :: ws => (some v, { s with q := rest, waiting := ws, notified := s.notified ++ [w] })

/-- Queue::set_limit (lines 117 to 120): overwrites limit_. -/
def set_limit {α : Type} (s : QState α) (n : Nat) : QState α :=
  { s with limit := n }

/-- Loop of thread_pool::clear_queue (lines 185 to 189): pop elements
and delete them until pop returns false. The fuel argument bounds the
iterations; each successful pop removes one element, so fuel q.length
runs the loop to completion. -/
def clearLoop {α : Type} : Nat → QState α → QState α
  | 0, s => s
  | n + 1, s =>
    match pop s with
    | (none, s1) => s1
    | (some _, s1) => clearLoop n s1

/-- thread_pool::clear_queue on the queue state: runs the
pop-and-delete loop until the queue is empty. The popped functors are
deleted, never invoked. -/
def clearQueue {α : Type} (s : QState α) : QState α := clearLoop s.q.length s

end QState

/-- Empty queue holding Nat values with limit_ = L, as after the
Queue default construction followed by set_limit. -/
def initQ (L : Nat) : QState Nat := ⟨[], L, [], []⟩

/-- A worker record: the unique_ptr thread slot of the threads
vector. A detached thread is no longer joinable. -/
structure WorkerRec where
  joinable : Bool

/-- A fresh thread as created by thread_pool::set_thread. -/
def newThread : WorkerRec := { joinable := true }

/-- Manager-visible state of ctpl::thread_pool (lines 129 to 318):
the threads and flags vectors, the task queue q, the isDone and
isStop atomics, the nWaiting counter, and results, the store of
fulfilled result channels of the packaged tasks. Result channels are
written only by executing workers (modeled by wstep below); none of
the manager operations writes this store. -/
structure PoolState where
  threads : List WorkerRec
  flags : List Bool
  queue : QState Task
  isDone : Bool
  isStop : Bool
  nWaiting : Nat
  results : List (Nat × Except Nat Nat)

/-- thread_pool::init (lines 302 to 305): nWaiting = 0, isStop and
isDone cleared; the member q starts empty with limit_ = 0 and both
vectors start empty. -/
def poolInit : PoolState :=
  { threads := [], flags := [], queue := ⟨[], 0, [], []⟩,
    isDone := false, isStop := false, nWaiting := 0, results := [] }

/-- Flag-setting loop of thread_pool::stop at lines 210 to 212: the
flags at indices below n = size() are set to true, the rest are left
alone. -/
def setFlags (fs : List Bool) (n : Nat) : List Bool :=
  (fs.take n).map (fun _ => true) ++ fs.drop n

namespace PoolState

/-- thread_pool::size (line 147). -/
def size (p : PoolState) : Nat := p.threads.length

/-- thread_pool::resize (lines 156 to 182): a no-op unless both
isStop and isDone are clear. Growth appends fresh threads with fresh
false flags for the new indices. Shrink sets the flag of every
dropped index, detaches the dropped threads, and then truncates both
vectors to n, so its net effect on this record is the truncation; the
detached threads keep copies of the shared flag pointers. -/
def resize (p : PoolState) (n : Nat) : PoolState :=
  if !p.isStop && !p.isDone then
    let old := p.threads.length
    if old ≤ n then
      { p with threads := p.threads ++ List.replicate (n - old) newThread,
               flags := p.flags ++ List.replicate (n - old) false }
    else
      { p with threads := p.threads.take n, flags := p.flags.take n }
  else p

/-- thread_pool::stop (lines 205 to 233). Forceful path (isWait
false): return at once if isStop is already set; otherwise set
isStop, set the flag of every index below size(), clear the queue,
notify all, join every still joinable thread, clear the queue again
(line 230), and clear both vectors. Graceful path (isWait true):
return at once if isDone or isStop is already set; otherwise set
isDone, notify all, join, clear the queue (line 230), and clear both
vectors. Joining changes no manager-visible state here; what a joined
worker does meanwhile is modeled by wstep below. -/
def stop (p : PoolState) (isWait : Bool) : PoolState :=
  if isWait then
    if p.isDone || p.isStop then p
    else
      let p1 : PoolState := { p with isDone := true }
      let p2 : PoolState := { p1 with queue := QState.clearQueue p1.queue }
      { p2 with threads := [], flags := [] }
  else
    if p.isStop then p
    else
      let p1 : PoolState := { p with isStop := true,
                                     flags := setFlags p.flags p.threads.length }
      let p2 : PoolState := { p1 with queue := QState.clearQueue p1.queue }
      let p3 : PoolState := { p2 with queue := QState.clearQueue p2.queue }
      { p3 with threads := [], flags := [] }

end PoolState

/-- Result of thread_pool::push from the view of the submitter:
either the task was appended, or the submitter is now parked inside
Queue::push awaiting a notification. -/
inductive PushResult where
  | pushed (p : PoolState)
  | blocked (p : PoolState)

/-- The pool state carried by a push result. -/
def PushResult.state : PushResult → PoolState
  | .pushed p => p
  | .blocked p => p

/-- thread_pool::push (lines 235 to 261): wraps the callable into a
packaged task, allocates the functor and calls q.push
unconditionally; isStop and isDone are not consulted. It then
notifies one worker on the pool condition variable. The submitter is
parked exactly when q.size() is at least limit_ on entry. -/
def PoolState.push (p : PoolState) (t : Task) : PushResult :=
  if p.queue.q.length ≥ p.queue.limit then
    PushResult.blocked { p with queue := QState.pushStart p.queue t }
  else
    PushResult.pushed { p with queue := QState.pushStart p.queue t }

/-- Default constructor thread_pool() (line 133): init only; limit_
keeps its default value 0. -/
def threadPoolDefault : PoolState := poolInit

/-- Constructor thread_pool(nThreads) (lines 134 to 139): init,
resize to nThreads, then q.set_limit(1). -/
def threadPoolN (n : Nat) : PoolState :=
  let p := PoolState.resize poolInit n
  { p with queue := QState.set_limit p.queue 1 }

/-- Program points of the worker loop set up by thread_pool::set_thread
(lines 272 to 300). -/
inductive WStatus where
  | popping
  | executing (t : Task)
  | waitingCV
  | terminated

/-- State of one worker thread together with the shared state its
loop touches: the worker index, the shared queue, its own stop flag,
the isDone atomic, the nWaiting counter and the result-channel
store. -/
structure Sys where
  idx : Nat
  queue : QState Task
  flag : Bool
  isDone : Bool
  nWaiting : Nat
  status : WStatus
  results : List (Nat × Except Nat Nat)

/-- One step of the worker loop of set_thread (lines 274 to 298),
with no other thread interleaved. At popping, the worker attempts
q.pop: on success it claims the task, otherwise it increments
nWaiting and parks in cv.wait. At executing t, it invokes the wrapped
functor: per the semantics of std::packaged_task, the outcome of the
callable, value or raised failure, is stored into the result channel
of the task and nothing propagates into the worker loop; then, if its
own flag is set the worker returns at once (line 284), else it loops
back to popping. At waitingCV, the wait predicate (line 292) retries
q.pop and wakes on success or when isDone or the flag is set; with
nothing popped and isDone or the flag set, the worker decrements
nWaiting and returns. -/
def wstep (s : Sys) : Sys :=
  match s.status with
  | WStatus.popping =>
    match QState.pop s.queue with
    | (some t, q1) => { s with queue := q1, status := WStatus.executing t }
    | (none, _) => { s with status := WStatus.waitingCV, nWaiting := s.nWaiting + 1 }
  | WStatus.executing t =>
    let s1 := { s with results := s.results ++ [(t.id, t.run s.idx)] }
    if s.flag then { s1 with status := WStatus.terminated }
    else { s1 with status := WStatus.popping }
  | WStatus.waitingCV =>
    match QState.pop s.queue with
    | (some t, q1) =>
      { s with queue := q1, status := WStatus.executing t, nWaiting := s.nWaiting - 1 }
    | (none, _) =>
      if s.isDone || s.flag then
        { s with status := WStatus.terminated, nWaiting := s.nWaiting - 1 }
      else s
  | WStatus.terminated => s

/-- Iterated worker steps. -/
def wrun : Nat → Sys → Sys
  | 0, s => s
  | n + 1, s => wrun n (wstep s)

/-- Queue events under the single-submitter discipline: a push, or a
pop whose notified pusher re-acquires the lock and appends before any
other operation intervenes. -/
inductive QEventSeq where
  | push (v : Nat)
  | popResume

/-- One queue event under the single-submitter discipline. -/
def qstepSeq (s : QState Nat) : QEventSeq → QState Nat
  | QEventSeq.push v => QState.pushStart s v
  | QEventSeq.popResume => QState.pushResume (QState.pop s).2

/-- Run of a sequence of disciplined queue events. -/
def runQSeq (s : QState Nat) (es : List QEventSeq) : QState Nat :=
  es.foldl qstepSeq s

/-- Sample task that succeeds. -/
def tOk : Task := ⟨7, fun _ => Except.ok 1⟩

/-- Sample task whose callable raises failure 3. -/
def tErr : Task := ⟨8, fun _ => Except.error 3⟩

/-- Worker that has one successful task queued, draining commanded,
flag clear, about to attempt a pop. -/
def sDrain : Sys := ⟨0, ⟨[tOk], 1, [], []⟩, false, true, 0, WStatus.popping, []⟩

/-- Worker about to execute the failing task, with a further task
queued behind it. -/
def sExec : Sys := ⟨0, ⟨[tOk], 1, [], []⟩, false, false, 0, WStatus.executing tErr, []⟩

/-- Worker executing the failing task with its stop flag set and a
further task still queued. -/
def sFast : Sys := ⟨0, ⟨[tOk], 1, [], []⟩, true, false, 0, WStatus.executing tErr, []⟩

/-- Pop on an empty queue returns the empty signal and changes
nothing. -/
theorem QState.pop_nil {α : Type} (s : QState α) (h : s.q = []) :
    QState.pop s = (none, s) := by
  obtain ⟨q, L, w, nf⟩ := s
  change q = [] at h
  subst h
  rfl

/-- Pop on a non-empty queue with no parked pusher removes the head
and notifies nobody. -/
theorem QState.pop_cons_nowait {α : Type} (s : QState α) (v : α) (rest : List α)
    (h : s.q = v :: rest) (hw : s.waiting = []) :
    QState.pop s = (some v, { s with q := rest }) := by
  obtain ⟨q, L, w, nf⟩ := s
  change q = v :: rest at h
  change w = [] at hw
  subst h
  subst hw
  rfl

/-- Pop on a non-empty queue with a parked pusher removes the head
and moves exactly the first parked pusher to the notified list. -/
theorem QState.pop_cons_wait {α : Type} (s : QState α) (v : α) (rest : List α)
    (w0 : α) (ws : List α) (h : s.q = v :: rest) (hw : s.waiting = w0 :: ws) :
    QState.pop s
      = (some v, { s with q := rest, waiting := ws, notified := s.notified ++ [w0] }) := by
  obtain ⟨q, L, w, nf⟩ := s
  change q = v :: rest at h
  change w = w0 :: ws at hw
  subst h
  subst hw
  rfl

/-- The clear loop with enough fuel leaves the queue list empty. -/
theorem QState.clearLoop_q {α : Type} :
    ∀ (n : Nat) (s : QState α), s.q.length ≤ n → (QState.clearLoop n s).q = [] := by
  intro n
  induction n with
  | zero =>
    intro s hs
    have : s.q = [] := List.eq_nil_of_length_eq_zero (Nat.le_zero.mp hs)
    simpa [QState.clearLoop] using this
  | succ n ih =>
    intro s hs
    obtain ⟨q, L, w, nf⟩ := s
    cases q with
    | nil => rfl
    | cons v rest =>
      cases w with
      | nil =>
        have hstep : QState.clearLoop (n + 1) (⟨v :: rest, L, [], nf⟩ : QState α)
            = QState.clearLoop n ⟨rest, L, [], nf⟩ := rfl
        rw [hstep]
        exact ih _ (by show rest.length ≤ n; simp [List.length_cons] at hs; omega)
      | cons w0 ws =>
        have hstep : QState.clearLoop (n + 1) (⟨v :: rest, L, w0 :: ws, nf⟩ : QState α)
            = QState.clearLoop n ⟨rest, L, ws, nf ++ [w0]⟩ := rfl
        rw [hstep]
        exact ih _ (by show rest.length ≤ n; simp [List.length_cons] at hs; omega)

/-- clear_queue leaves the queue list empty. -/
theorem QState.clearQueue_q {α : Type} (s : QState α) : (QState.clearQueue s).q = [] :=
  QState.clearLoop_q s.q.length s le_rfl

/-- Worker step at popping with a non-empty queue and no parked
pusher: the head task is claimed. -/
theorem wstep_pop_cons (s : Sys) (t : Task) (rest : List Task)
    (h : s.status = WStatus.popping) (hq : s.queue.q = t :: rest)
    (hw : s.queue.waiting = []) :
    wstep s = { s with queue := { s.queue with q := rest }, status := WStatus.executing t } := by
  obtain ⟨i, qu, fl, d, nw, st, rs⟩ := s
  change st = WStatus.popping at h
  subst h
  obtain ⟨q, L, w, nf⟩ := qu
  change q = t :: rest at hq
  change w = [] at hw
  subst hq
  subst hw
  rfl

/-- Worker step at popping with an empty queue: the worker increments
nWaiting and parks in cv.wait. -/
theorem wstep_pop_nil (s : Sys) (h : s.status = WStatus.popping)
    (hq : s.queue.q = []) :
    wstep s = { s with status := WStatus.waitingCV, nWaiting := s.nWaiting + 1 } := by
  obtain ⟨i, qu, fl, d, nw, st, rs⟩ := s
  change st = WStatus.popping at h
  subst h
  obtain ⟨q, L, w, nf⟩ := qu
  change q = [] at hq
  subst hq
  rfl

/-- Worker step at executing with the stop flag of the worker set:
the outcome is stored into the result channel and the worker returns
at once. -/
theorem wstep_exec_stop (s : Sys) (t : Task) (h : s.status = WStatus.executing t)
    (hf : s.flag = true) :
    wstep s = { s with results := s.results ++ [(t.id, t.run s.idx)],
                       status := WStatus.terminated } := by
  obtain ⟨i, qu, fl, d, nw, st, rs⟩ := s
  change st = WStatus.executing t at h
  subst h
  change fl = true at hf
  subst hf
  rfl

/-- Worker step at executing with the stop flag clear: the outcome is
stored into the result channel and the worker loops back to the pop
attempt. -/
theorem wstep_exec_go (s : Sys) (t : Task) (h : s.status = WStatus.executing t)
    (hf : s.flag = false) :
    wstep s = { s with results := s.results ++ [(t.id, t.run s.idx)],
                       status := WStatus.popping } := by
  obtain ⟨i, qu, fl, d, nw, st, rs⟩ := s
  change st = WStatus.executing t at h
  subst h
  change fl = false at hf
  subst hf
  rfl

/-- Worker step at waitingCV with an empty queue and isDone set: the
wait predicate holds with nothing popped, so the worker decrements
nWaiting and returns. -/
theorem wstep_wait_done (s : Sys) (h : s.status = WStatus.waitingCV)
    (hq : s.queue.q = []) (hd : s.isDone = true) :
    wstep s = { s with status := WStatus.terminated, nWaiting := s.nWaiting - 1 } := by
  obtain ⟨i, qu, fl, d, nw, st, rs⟩ := s
  change st = WStatus.waitingCV at h
  subst h
  obtain ⟨q, L, w, nf⟩ := qu
  change q = [] at hq
  subst hq
  change d = true at hd
  subst hd
  rfl

/-- Unfolding of one iterated worker step. -/
theorem wrun_succ (n : Nat) (s : Sys) : wrun (n + 1) s = wrun n (wstep s) := rfl

/-- Invariant of the disciplined queue runs: starting from a state
whose size is within the limit and with no pusher pending resumption,
every disciplined run keeps the size within the limit, leaves no
pusher pending resumption, and preserves the limit. -/
theorem seqInv :
    ∀ (es : List QEventSeq) (s : QState Nat),
      s.q.length ≤ s.limit → s.notified = [] →
      (runQSeq s es).q.length ≤ (runQSeq s es).limit ∧
      (runQSeq s es).notified = [] ∧ (runQSeq s es).limit = s.limit := by
  intro es
  induction es with
  | nil =>
    intro s h1 h2
    exact ⟨h1, h2, rfl⟩
  | cons e rest ih =>
    intro s h1 h2
    have hrun : runQSeq s (e :: rest) = runQSeq (qstepSeq s e) rest := rfl
    rw [hrun]
    cases e with
    | push v =>
      by_cases hge : s.q.length ≥ s.limit
      · have hstep : qstepSeq s (QEventSeq.push v) = { s with waiting := s.waiting ++ [v] } := by
          simp [qstepSeq, QState.pushStart, hge]
        rw [hstep]
        exact ih _ h1 h2
      · have hstep : qstepSeq s (QEventSeq.push v) = { s with q := s.q ++ [v] } := by
          simp [qstepSeq, QState.pushStart, hge]
        rw [hstep]
        refine ih _ ?_ h2
        show (s.q ++ [v]).length ≤ s.limit
        simp only [List.length_append, List.length_singleton]
        omega
    | popResume =>
      obtain ⟨q, L, w, nf⟩ := s
      change nf = [] at h2
      subst h2
      change q.length ≤ L at h1
      cases q with
      | nil =>
        have hstep : qstepSeq (⟨[], L, w, []⟩ : QState Nat) QEventSeq.popResume
            = ⟨[], L, w, []⟩ := rfl
        rw [hstep]
        exact ih _ h1 rfl
      | cons v rest2 =>
        cases w with
        | nil =>
          have hstep : qstepSeq (⟨v :: rest2, L, [], []⟩ : QState Nat) QEventSeq.popResume
              = ⟨rest2, L, [], []⟩ := rfl
          rw [hstep]
          refine ih _ ?_ rfl
          show rest2.length ≤ L
          simp [List.length_cons] at h1
          omega
        | cons w0 ws =>
          have hstep : qstepSeq (⟨v :: rest2, L, w0 :: ws, []⟩ : QState Nat) QEventSeq.popResume
              = ⟨rest2 ++ [w0], L, ws, []⟩ := rfl
          rw [hstep]
          refine ih _ ?_ rfl
          show (rest2 ++ [w0]).length ≤ L
          simp only [List.length_append, List.length_singleton]
          simp [List.length_cons] at h1
          omega

/-- C1 (amended): with a fixed nonzero limit, as long as every pusher
that a pop has notified re-acquires the lock and appends before any
further queue operation runs (the disciplined runs), the size never
exceeds the limit. Moreover, a push that arrives while size is at
least the limit parks the caller in cv.wait without appending, and a
notified pusher appends at the tail unconditionally, with no re-check
of the limit. -/
theorem queue_seq_push_bounded :
    (∀ (L : Nat) (es : List QEventSeq), 0 < L →
      (runQSeq (initQ L) es).q.length ≤ L) ∧
    (∀ (s : QState Nat) (v : Nat), s.q.length ≥ s.limit →
      QState.pushStart s v = { s with waiting := s.waiting ++ [v] }) ∧
    (∀ (s : QState Nat) (w : Nat) (ws : List Nat), s.notified = w :: ws →
      QState.pushResume s = { s with q := s.q ++ [w], notified := ws }) := by
  refine ⟨?_, ?_, ?_⟩
  · intro L es hL
    obtain ⟨h1, h2, h3⟩ := seqInv es (initQ L) (by simp [initQ]) rfl
    calc (runQSeq (initQ L) es).q.length
        ≤ (runQSeq (initQ L) es).limit := h1
      _ = L := h3
  · intro s v h
    simp [QState.pushStart, h]
  · intro s w ws h
    obtain ⟨q, L, wl, nf⟩ := s
    change nf = w :: ws at h
    subst h
    rfl

/-- C1 witness: a run of two pushes and a disciplined pop-resume on a
queue of limit 1 stays within the limit; a push against a full queue
parks the caller; a notified pusher appends unconditionally. -/
theorem queue_seq_push_bounded_witness :
    (0 < 1 ∧
      (runQSeq (initQ 1) [QEventSeq.push 5, QEventSeq.push 6, QEventSeq.popResume]).q.length ≤ 1) ∧
    QState.pushStart (⟨[3], 1, [], []⟩ : QState Nat) 4 = ⟨[3], 1, [4], []⟩ ∧
    QState.pushResume (⟨[3], 1, [], [4]⟩ : QState Nat) = ⟨[3, 4], 1, [], []⟩ :=
  ⟨⟨Nat.one_pos,
     queue_seq_push_bounded.1 1 [QEventSeq.push 5, QEventSeq.push 6, QEventSeq.popResume]
       Nat.one_pos⟩,
   queue_seq_push_bounded.2.1 ⟨[3], 1, [], []⟩ 4 (by decide),
   queue_seq_push_bounded.2.2 ⟨[3], 1, [], [4]⟩ 4 [] rfl⟩

/-- C1 counterexample: the claim that the size never exceeds a
nonzero limit is false. On a queue with limit 1, push 10 (appended),
push 20 (parked), pop (removes 10, notifies the parked pusher), push
30 (appended, since the queue is momentarily empty), and the
resumption of the notified pusher (appends 20 with no re-check of the
limit) reach a state with limit 1 and size 2. -/
theorem queue_limit_exceeded_cex :
    (QState.pushResume
      (QState.pushStart
        ((QState.pop (QState.pushStart (QState.pushStart (initQ 1) 10) 20)).2) 30)).limit = 1 ∧
    (QState.pushResume
      (QState.pushStart
        ((QState.pop (QState.pushStart (QState.pushStart (initQ 1) 10) 20)).2) 30)).q.length = 2 :=
  ⟨rfl, rfl⟩

/-- C2 (code bug evaluation): with the default limit_ = 0, the test
at line 97 reads q.size() (0) as at least limit_ (0), so the very
first push on an empty queue parks the caller in cv.wait without
appending anything, and a pop finds the queue empty, returns the
empty signal and never notifies, so the parked pusher is never
woken. -/
theorem push_limit_zero_suspends :
    QState.pushStart (initQ 0) 7 = (⟨[], 0, [7], []⟩ : QState Nat) ∧
    QState.pop (QState.pushStart (initQ 0) 7)
      = (none, (⟨[], 0, [7], []⟩ : QState Nat)) :=
  ⟨rfl, rfl⟩

/-- C3: the thread-count constructor sets the queue limit to exactly
1 on every pool it builds, and the default constructor leaves the
limit at its default 0. -/
theorem ctor_limit_values :
    (∀ (n : Nat), (threadPoolN n).queue.limit = 1) ∧ threadPoolDefault.queue.limit = 0 :=
  ⟨fun _ => rfl, rfl⟩

/-- C4 counterexample: the two terminal flags are not mutually
exclusive, and push is not rejected after stop. A graceful stop
followed by a forceful stop leaves both isDone and isStop set (stop
with isWait false checks only isStop, lines 206 to 209); and a push
after a forceful stop still enqueues its task, since thread_pool::push
consults neither flag. -/
theorem terminal_flags_cex :
    (PoolState.stop (PoolState.stop (threadPoolN 0) true) false).isStop = true ∧
    (PoolState.stop (PoolState.stop (threadPoolN 0) true) false).isDone = true ∧
    (PoolState.stop (threadPoolN 0) false).isStop = true ∧
    ((PoolState.push (PoolState.stop (threadPoolN 0) false) tOk).state).queue.q.map Task.id
      = [7] :=
  ⟨rfl, rfl, rfl, rfl⟩

/-- C4 (amended): once either the stopping flag or the draining flag
is set, every subsequent resize call leaves the pool unchanged and
every subsequent graceful stop leaves the pool unchanged; push is not
guarded and still enqueues, and the flags are not mutually exclusive,
since a forceful stop after a graceful one sets both. -/
theorem terminal_resize_rejected :
    ∀ (p : PoolState) (n : Nat), p.isStop = true ∨ p.isDone = true →
      PoolState.resize p n = p ∧ PoolState.stop p true = p := by
  intro p n h
  rcases h with h | h
  · constructor
    · simp [PoolState.resize, h]
    · simp [PoolState.stop, h]
  · constructor
    · simp [PoolState.resize, h]
    · simp [PoolState.stop, h]

/-- C4 witness: a pool that was stopped forcefully has isStop set,
and resizing it to 3 or stopping it gracefully changes nothing. -/
theorem terminal_resize_rejected_witness :
    (PoolState.stop (threadPoolN 0) false).isStop = true ∧
    PoolState.resize (PoolState.stop (threadPoolN 0) false) 3
      = PoolState.stop (threadPoolN 0) false ∧
    PoolState.stop (PoolState.stop (threadPoolN 0) false) true
      = PoolState.stop (threadPoolN 0) false :=
  ⟨rfl,
   (terminal_resize_rejected (PoolState.stop (threadPoolN 0) false) 3 (Or.inl rfl)).1,
   (terminal_resize_rejected (PoolState.stop (threadPoolN 0) false) 3 (Or.inl rfl)).2⟩

/-- C5: a forceful stop on a running pool sets the stopping flag,
sets the stop flag of every worker index (the flag loop turns the
whole flags vector true when it matches the threads vector in
length), empties the queue by deleting the queued functors without
invoking any of them (the result store is untouched), and finally
clears the worker and flag collections; joining changes no
manager-visible state. Moreover a task already claimed by a worker
runs to completion: the executing step always stores the outcome of
the claimed task into its result channel, whatever the flags say. -/
theorem forceful_stop_spec :
    (∀ (p : PoolState), p.isStop = false → p.queue.q ≠ [] →
      (PoolState.stop p false).isStop = true ∧
      (PoolState.stop p false).queue.q = [] ∧
      (PoolState.stop p false).results = p.results ∧
      (PoolState.stop p false).threads = [] ∧
      (PoolState.stop p false).flags = [] ∧
      (p.flags.length = p.threads.length →
        setFlags p.flags p.threads.length = List.replicate p.flags.length true)) ∧
    (∀ (s : Sys) (t : Task), s.status = WStatus.executing t →
      (wstep s).results = s.results ++ [(t.id, t.run s.idx)]) := by
  constructor
  · intro p h hne
    refine ⟨?_, ?_, ?_, ?_, ?_, ?_⟩
    · simp [PoolState.stop, h]
    · simp [PoolState.stop, h, QState.clearQueue_q]
    · simp [PoolState.stop, h]
    · simp [PoolState.stop, h]
    · simp [PoolState.stop, h]
    · intro heq
      rw [← heq]
      simp [setFlags]
  · intro s t h
    cases hf : s.flag with
    | true =>
      rw [wstep_exec_stop s t h hf]
    | false =>
      rw [wstep_exec_go s t h hf]

/-- C5 witness: the pool with one worker and one queued task, stopped
forcefully: isStop becomes set, the queue is emptied, and the result
store stays empty, so the queued task was destroyed unexecuted. -/
theorem forceful_stop_spec_witness :
    (PoolState.push (threadPoolN 1) tOk).state.isStop = false ∧
    (PoolState.stop (PoolState.push (threadPoolN 1) tOk).state false).isStop = true ∧
    (PoolState.stop (PoolState.push (threadPoolN 1) tOk).state false).queue.q = [] ∧
    (PoolState.stop (PoolState.push (threadPoolN 1) tOk).state false).results = [] :=
  ⟨rfl,
   (forceful_stop_spec.1 (PoolState.push (threadPoolN 1) tOk).state rfl
     (List.cons_ne_nil tOk [])).1,
   (forceful_stop_spec.1 (PoolState.push (threadPoolN 1) tOk).state rfl
     (List.cons_ne_nil tOk [])).2.1,
   (forceful_stop_spec.1 (PoolState.push (threadPoolN 1) tOk).state rfl
     (List.cons_ne_nil tOk [])).2.2.1⟩

/-- C10: on a running pool (both terminal flags clear), resize to n
leaves exactly n worker records: growth appends exactly n minus the
old count fresh worker records with fresh false flags, and shrink
truncates the worker records and flags down to n. -/
theorem resize_postcondition :
    ∀ (p : PoolState) (n : Nat), p.isStop = false → p.isDone = false →
      (PoolState.resize p n).threads.length = n ∧
      (p.threads.length ≤ n →
        (PoolState.resize p n).threads
          = p.threads ++ List.replicate (n - p.threads.length) newThread ∧
        (PoolState.resize p n).flags
          = p.flags ++ List.replicate (n - p.threads.length) false) ∧
      (n < p.threads.length →
        (PoolState.resize p n).threads = p.threads.take n ∧
        (PoolState.resize p n).flags = p.flags.take n) := by
  intro p n h1 h2
  by_cases hle : p.threads.length ≤ n
  · have hr : PoolState.resize p n
        = { p with threads := p.threads ++ List.replicate (n - p.threads.length) newThread,
                   flags := p.flags ++ List.replicate (n - p.threads.length) false } := by
      simp [PoolState.resize, h1, h2, hle]
    refine ⟨?_, fun _ => ⟨by rw [hr], by rw [hr]⟩, fun hlt => absurd hle (Nat.not_le.mpr hlt)⟩
    rw [hr]
    show (p.threads ++ List.replicate (n - p.threads.length) newThread).length = n
    simp only [List.length_append, List.length_replicate]
    omega
  · have hr : PoolState.resize p n
        = { p with threads := p.threads.take n, flags := p.flags.take n } := by
      simp [PoolState.resize, h1, h2, hle]
    refine ⟨?_, fun hle2 => absurd hle2 hle, fun _ => ⟨by rw [hr], by rw [hr]⟩⟩
    rw [hr]
    show (p.threads.take n).length = n
    simp only [List.length_take]
    omega

/-- C6 counterexample: on a pool built with zero workers and one
queued task, a graceful stop joins nothing and then deletes the
queued task unexecuted in the final clear_queue (line 230): the queue
ends empty while the result store stays empty, so the task never
executed. -/
theorem graceful_stop_zero_workers_cex :
    (PoolState.push (threadPoolN 0) tOk).state.threads = [] ∧
    (PoolState.push (threadPoolN 0) tOk).state.queue.q.map Task.id = [7] ∧
    (PoolState.stop (PoolState.push (threadPoolN 0) tOk).state true).queue.q = [] ∧
    (PoolState.stop (PoolState.push (threadPoolN 0) tOk).state true).results = [] :=
  ⟨rfl, rfl, rfl, rfl⟩

/-- C6 (amended): after draining is commanded, a still-attached
worker whose stop flag is clear executes every queued task exactly
once, in queue order, and terminates once the queue is empty; this is
the single-worker run with no interleaved submissions, two steps per
task plus the final park-and-exit. With zero attached workers the
queued tasks are instead destroyed unexecuted by the final queue
clearing of the graceful stop. -/
theorem graceful_drain_single_worker :
    ∀ (ts : List Task) (s : Sys),
      s.status = WStatus.popping → s.flag = false → s.isDone = true →
      s.queue.q = ts → s.queue.waiting = [] →
      (wrun (2 * ts.length + 2) s).status = WStatus.terminated ∧
      (wrun (2 * ts.length + 2) s).results
        = s.results ++ ts.map (fun u => (u.id, u.run s.idx)) ∧
      (wrun (2 * ts.length + 2) s).queue.q = [] := by
  intro ts
  induction ts with
  | nil =>
    intro s h1 h2 h3 h4 h5
    obtain ⟨i, ⟨q, L, w, nf⟩, fl, d, nw, st, rs⟩ := s
    change st = WStatus.popping at h1
    change fl = false at h2
    change d = true at h3
    change q = [] at h4
    change w = [] at h5
    subst h1
    subst h2
    subst h3
    subst h4
    subst h5
    refine ⟨rfl, ?_, rfl⟩
    change rs = rs ++ List.map (fun u : Task => (u.id, u.run i)) ([] : List Task)
    simp
  | cons t rest ih =>
    intro s h1 h2 h3 h4 h5
    obtain ⟨i, ⟨q, L, w, nf⟩, fl, d, nw, st, rs⟩ := s
    change st = WStatus.popping at h1
    change fl = false at h2
    change d = true at h3
    change q = t :: rest at h4
    change w = [] at h5
    subst h1
    subst h2
    subst h3
    subst h4
    subst h5
    have key : wrun (2 * (t :: rest).length + 2)
          (⟨i, ⟨t :: rest, L, [], nf⟩, false, true, nw, WStatus.popping, rs⟩ : Sys)
        = wrun (2 * rest.length + 2)
          (⟨i, ⟨rest, L, [], nf⟩, false, true, nw, WStatus.popping,
            rs ++ [(t.id, t.run i)]⟩ : Sys) := rfl
    rw [key]
    obtain ⟨ih1, ih2, ih3⟩ :=
      ih (⟨i, ⟨rest, L, [], nf⟩, false, true, nw, WStatus.popping,
            rs ++ [(t.id, t.run i)]⟩ : Sys) rfl rfl rfl rfl rfl
    refine ⟨ih1, ?_, ih3⟩
    rw [ih2]
    simp [List.map_cons, List.append_assoc]

/-- C6 witness: that worker executes the one queued task, records its
result, and terminates after four steps. -/
theorem graceful_drain_single_worker_witness :
    (wrun 4 sDrain).status = WStatus.terminated ∧
    (wrun 4 sDrain).results = [(7, Except.ok 1)] ∧
    (wrun 4 sDrain).queue.q = [] :=
  ⟨(graceful_drain_single_worker [tOk] sDrain rfl rfl rfl rfl rfl).1,
   (graceful_drain_single_worker [tOk] sDrain rfl rfl rfl rfl rfl).2.1,
   (graceful_drain_single_worker [tOk] sDrain rfl rfl rfl rfl rfl).2.2⟩

/-- C7: when the callable of the claimed task raises a failure, the
worker step stores exactly that failure into the result channel of
the task (std::packaged_task captures it; nothing reaches the worker
loop), the worker does not terminate but loops back to the pop
attempt, and on the next step it claims the next queued task. -/
theorem task_failure_contained :
    ∀ (s : Sys) (t : Task) (e : Nat),
      s.status = WStatus.executing t → t.run s.idx = Except.error e → s.flag = false →
      (wstep s).results = s.results ++ [(t.id, Except.error e)] ∧
      (wstep s).status = WStatus.popping ∧
      (∀ (u : Task) (rest : List Task),
        s.queue.q = u :: rest → s.queue.waiting = [] →
        (wstep (wstep s)).status = WStatus.executing u) := by
  intro s t e h hrun hf
  rw [wstep_exec_go s t h hf]
  refine ⟨?_, rfl, ?_⟩
  · show s.results ++ [(t.id, t.run s.idx)] = s.results ++ [(t.id, Except.error e)]
    rw [hrun]
  · intro u rest hq hw
    rw [wstep_pop_cons
      { s with results := s.results ++ [(t.id, t.run s.idx)], status := WStatus.popping }
      u rest rfl hq hw]

/-- C7 witness: executing the failing task records exactly failure 3
on channel 8, and the worker then claims the next queued task. -/
theorem task_failure_contained_witness :
    tErr.run 0 = Except.error 3 ∧
    (wstep sExec).results = [(8, Except.error 3)] ∧
    (wstep (wstep sExec)).status = WStatus.executing tOk :=
  ⟨rfl,
   (task_failure_contained sExec tErr 3 rfl rfl rfl).1,
   (task_failure_contained sExec tErr 3 rfl rfl rfl).2.2 tOk [] rfl rfl⟩

/-- C8: a worker that finishes executing a claimed task while its own
stop flag is set terminates immediately, without touching the queue
again, even though the queue is non-empty; the finished task still
has its outcome recorded. -/
theorem worker_fast_terminate :
    ∀ (s : Sys) (t : Task), s.status = WStatus.executing t → s.flag = true →
      s.queue.q ≠ [] →
      (wstep s).status = WStatus.terminated ∧
      (wstep s).queue = s.queue ∧
      (wstep s).results = s.results ++ [(t.id, t.run s.idx)] := by
  intro s t h hf hne
  rw [wstep_exec_stop s t h hf]
  exact ⟨rfl, rfl, rfl⟩

/-- C8 witness: that worker terminates right after the execution and
leaves the queued task in place. -/
theorem worker_fast_terminate_witness :
    sFast.flag = true ∧
    (wstep sFast).status = WStatus.terminated ∧
    (wstep sFast).queue = sFast.queue :=
  ⟨rfl,
   (worker_fast_terminate sFast tErr rfl rfl (List.cons_ne_nil tOk [])).1,
   (worker_fast_terminate sFast tErr rfl rfl (List.cons_ne_nil tOk [])).2.1⟩

/-- C9: pop on an empty queue returns the empty signal and changes
nothing; pop on a non-empty queue removes and returns the head (the
oldest pushed), keeps the limit, and wakes at most one parked pusher:
none when the waiting list is empty, exactly its first entry
otherwise. Pop is a total function of the state, it never waits. -/
theorem pop_contract :
    ∀ (α : Type) (s : QState α),
      (s.q = [] → QState.pop s = (none, s)) ∧
      (∀ (v : α) (rest : List α), s.q = v :: rest →
        (QState.pop s).1 = some v ∧
        (QState.pop s).2.q = rest ∧
        (QState.pop s).2.limit = s.limit ∧
        (s.waiting = [] →
          (QState.pop s).2.waiting = [] ∧ (QState.pop s).2.notified = s.notified) ∧
        (∀ (w : α) (ws : List α), s.waiting = w :: ws →
          (QState.pop s).2.waiting = ws ∧
          (QState.pop s).2.notified = s.notified ++ [w])) := by
  intro α s
  constructor
  · intro h
    exact QState.pop_nil s h
  · intro v rest hq
    cases hw : s.waiting with
    | nil =>
      rw [QState.pop_cons_nowait s v rest hq hw]
      refine ⟨rfl, rfl, rfl, fun _ => ⟨hw, rfl⟩, ?_⟩
      intro w ws hw2
      exact absurd hw2 (by simp)
    | cons w0 ws0 =>
      rw [QState.pop_cons_wait s v rest w0 ws0 hq hw]
      refine ⟨rfl, rfl, rfl, ?_, ?_⟩
      · intro h2
        exact absurd h2 (by simp)
      · intro w ws hw2
        injection hw2 with e1 e2
        subst e1
        subst e2
        exact ⟨rfl, rfl⟩

/-- C9 witness: on the queue holding 5 then 6 with one parked pusher
9, pop returns 5, leaves 6, and wakes exactly pusher 9; on an empty
queue pop returns the empty signal unchanged. -/
theorem pop_contract_witness :
    QState.pop (⟨[], 1, [], []⟩ : QState Nat) = (none, (⟨[], 1, [], []⟩ : QState Nat)) ∧
    (QState.pop (⟨[5, 6], 2, [9], []⟩ : QState Nat)).1 = some 5 ∧
    (QState.pop (⟨[5, 6], 2, [9], []⟩ : QState Nat)).2.q = [6] ∧
    (QState.pop (⟨[5, 6], 2, [9], []⟩ : QState Nat)).2.waiting = [] ∧
    (QState.pop (⟨[5, 6], 2, [9], []⟩ : QState Nat)).2.notified = [9] :=
  ⟨(pop_contract Nat ⟨[], 1, [], []⟩).1 rfl,
   ((pop_contract Nat ⟨[5, 6], 2, [9], []⟩).2 5 [6] rfl).1,
   ((pop_contract Nat ⟨[5, 6], 2, [9], []⟩).2 5 [6] rfl).2.1,
   (((pop_contract Nat ⟨[5, 6], 2, [9], []⟩).2 5 [6] rfl).2.2.2.2 9 [] rfl).1,
   (((pop_contract Nat ⟨[5, 6], 2, [9], []⟩).2 5 [6] rfl).2.2.2.2 9 [] rfl).2⟩

/-- C10 witness: growing the two-worker pool to five workers yields
five worker records, the two old ones followed by three fresh
ones. -/
theorem resize_postcondition_witness :
    (threadPoolN 2).isStop = false ∧
    (PoolState.resize (threadPoolN 2) 5).threads.length = 5 ∧
    (PoolState.resize (threadPoolN 2) 5).threads
      = (threadPoolN 2).threads ++ List.replicate 3 newThread :=
  ⟨rfl,
   (resize_postcondition (threadPoolN 2) 5 rfl rfl).1,
   ((resize_postcondition (threadPoolN 2) 5 rfl rfl).2.1 (by decide)).1⟩

end Ctpl
